import Mathlib

/-!
# Book catalog web client: session, authenticated requests, images, XML decoding

A shallow embedding of `webapp/script.js` and `webapp/firebase-config.js`.

* Asynchronous functions are modelled as state passing over `World`: every
  `await` is sequenced, a rejected promise is `Except.error`, a `try`/`catch`
  is a `match` on the outcome.
* The remote API and the object store are oracles: the answer to a request may
  depend on the request and on how many requests were made before it.
* `log` appends to the log pane; the DOM is reduced to which form is shown.
-/

set_option autoImplicit false

namespace Webapp

deriving instance DecidableEq for Except

/-! ## JavaScript values and objects -/

/-- A JavaScript value as far as the session variables can observe it: `null`,
`undefined`, a string, or any other value, of which only truthiness and the
string conversion matter. -/
inductive JVal where
  | null
  | undefined
  | str (s : String)
  | other (truthy : Bool) (shown : String)
  deriving DecidableEq, Repr

/-- Truthiness, as tested by `if (x)` and `!x`. -/
def JVal.truthy : JVal → Bool
  | .null => false
  | .undefined => false
  | .str s => s != ""
  | .other t _ => t

/-- String conversion, as done by a template literal and by `localStorage.setItem`. -/
def JVal.toStr : JVal → String
  | .null => "null"
  | .undefined => "undefined"
  | .str s => s
  | .other _ shown => shown

/-- The value of `localStorage.getItem`: a string, or `null` for a missing key. -/
def JVal.ofItem : Option String → JVal
  | none => .null
  | some s => .str s

/-- A JavaScript object with string values: its own properties in insertion order. -/
abbrev Obj := List (String × String)

/-- Plain property write `o[k] = v` (also what a spread does per key): an
existing key keeps its place and gets the new value, a new key goes last. -/
def setKey (k v : String) : Obj → Obj
  | [] => [(k, v)]
  | (k0, v0) :: rest => if k0 = k then (k0, v) :: rest else (k0, v0) :: setKey k v rest

/-- Object spread `{...base, ...src}`. -/
def spread (base src : Obj) : Obj :=
  src.foldl (fun acc kv => setKey kv.1 kv.2 acc) base

/-- Property read `o[k]`. -/
def getKey (k : String) : Obj → Option String
  | [] => none
  | (k0, v0) :: rest => if k0 = k then some v0 else getKey k rest

/-! ## Requests and responses -/

/-- A thrown JavaScript error. -/
structure JsErr where
  name : String
  message : String
  deriving DecidableEq, Repr

/-- The options object passed to `fetch`; `none` is an absent property. -/
structure Options where
  method : Option String
  headers : Option Obj
  body : Option String
  deriving DecidableEq, Repr

/-- The default `options = {}`. -/
def Options.empty : Options := ⟨none, none, none⟩

/-- A decoded JSON payload, as far as property reads can tell. -/
inductive JsonData where
  | null
  | obj (fields : List (String × JVal))
  deriving DecidableEq, Repr

/-- Property read `data.key` on `await response.json()`. -/
def JsonData.get (key : String) : JsonData → Except JsErr JVal
  | .null => .error ⟨"TypeError", "Cannot read properties of null"⟩
  | .obj fields =>
    match fields.find? (fun kv => kv.1 = key) with
    | some kv => .ok kv.2
    | none => .ok .undefined

/-- An HTTP response: status, text body, and what `response.json()` settles to. -/
structure Response where
  status : Nat
  body : String
  json : Except JsErr JsonData
  deriving DecidableEq

/-- The getter `response.ok`. -/
def Response.ok (r : Response) : Bool :=
  decide (200 ≤ r.status) && decide (r.status ≤ 299)

/-- The remote API: given the number of requests already made, the url and the
options, the fetch rejects or resolves with a response. -/
abbrev Server := Nat → String → Options → Except JsErr Response

/-- The `fetch` call sites of `script.js`. -/
inductive Site where
  | login
  | register
  | logout
  | refresh
  | request
  | retry
  deriving DecidableEq, Repr

/-- One request as it went out. -/
structure Sent where
  site : Site
  url : String
  init : Options
  deriving DecidableEq, Repr

/-! ## The world of `script.js` -/

/-- The module variables `accessToken`, `refreshToken`, `currentUser`. -/
structure Session where
  accessToken : JVal
  refreshToken : JVal
  currentUser : JVal
  deriving DecidableEq, Repr

/-- The three `localStorage` slots of the same names. -/
structure LocalStorage where
  accessToken : Option String
  refreshToken : Option String
  currentUser : Option String
  deriving DecidableEq, Repr

/-- Which form the page shows. -/
inductive View where
  | loginForm
  | registerForm
  | mainContent
  deriving DecidableEq, Repr

/-- Everything `script.js` reads and writes. `sent` and `refreshCalls` are
traces: the requests made so far, in order, and how often
`refreshTokenIfNeeded` was entered. -/
structure World where
  session : Session
  localStorage : LocalStorage
  view : View
  logs : List (String × String)
  sent : List Sent
  refreshCalls : Nat
  deriving DecidableEq, Repr

def API_BASE_URL : String := "http://127.0.0.1:5000"

/-- The module initialisation, lines 3 to 5: the variables are read from storage. -/
def World.load (st : LocalStorage) (view : View) : World :=
  { session := ⟨JVal.ofItem st.accessToken, JVal.ofItem st.refreshToken, JVal.ofItem st.currentUser⟩
    localStorage := st
    view := view
    logs := []
    sent := []
    refreshCalls := 0 }

/-- The helper `log(message, type)`: one more entry in the log pane. -/
def log (message type : String) (w : World) : World :=
  { w with logs := w.logs ++ [(type, message)] }

def showLoginForm (w : World) : World :=
  { w with view := View.loginForm }

/-- A call of `fetch` from the call site `site`. -/
def fetch (srv : Server) (site : Site) (url : String) (init : Options) (w : World) :
    Except JsErr Response × World :=
  (srv w.sent.length url init, { w with sent := w.sent ++ [⟨site, url, init⟩] })

/-- The function `logout`, lines 136 to 159. -/
def logout (srv : Server) (w : World) : Except JsErr Unit × World :=
  let w1 :=
    match fetch srv Site.logout (API_BASE_URL ++ "/auth/logout")
        ⟨some "POST", some [("Authorization", "Bearer " ++ w.session.accessToken.toStr)], none⟩ w with
    | (.ok _, w1) => w1
    | (.error error, w1) => log ("Error en logout: " ++ error.message) "warning" w1
  let w2 := { w1 with localStorage := ⟨none, none, none⟩ }
  let w3 := { w2 with session := ⟨JVal.null, JVal.null, JVal.null⟩ }
  (.ok (), showLoginForm (log "Sesión cerrada" "info" w3))

/-- The function `refreshTokenIfNeeded`, lines 161 to 186. -/
def refreshTokenIfNeeded (srv : Server) (w0 : World) : Except JsErr Unit × World :=
  let w := { w0 with refreshCalls := w0.refreshCalls + 1 }
  if w.session.refreshToken.truthy = false then (.ok (), w)
  else
    match fetch srv Site.refresh (API_BASE_URL ++ "/auth/refresh")
        ⟨some "POST", some [("Authorization", "Bearer " ++ w.session.refreshToken.toStr)], none⟩ w with
    | (.error error, w1) => (.ok (), log ("Error al renovar token: " ++ error.message) "error" w1)
    | (.ok response, w1) =>
      if response.ok then
        match response.json >>= JsonData.get "access_token" with
        | .error error => (.ok (), log ("Error al renovar token: " ++ error.message) "error" w1)
        | .ok token =>
          let w2 := { w1 with session := { w1.session with accessToken := token } }
          let w3 := { w2 with localStorage := { w2.localStorage with accessToken := some token.toStr } }
          (.ok (), log "Token de acceso renovado automáticamente" "info" w3)
      else
        (.ok (), log "Error al renovar token, será necesario volver a iniciar sesión" "warning" w1)

/-- The headers object built at lines 191 to 195. -/
def defaultHeaders (accessToken : JVal) (options : Options) : Obj :=
  spread [("Authorization", "Bearer " ++ accessToken.toStr), ("Content-Type", "application/json")]
    (options.headers.getD [])

/-- The spread `{ ...defaultOptions, ...options }`, where `defaultOptions` has
the single property `headers`: every property of `options` wins, `headers`
included when the caller has one. -/
def withDefaults (headers : Obj) (options : Options) : Options :=
  { method := options.method
    headers := some (options.headers.getD headers)
    body := options.body }

/-- The function `makeAuthenticatedRequest`, lines 189 to 216. The call
`logout()` at line 210 is not awaited; its effects are taken at completion. -/
def makeAuthenticatedRequest (srv : Server) (url : String) (options : Options) (w : World) :
    Except JsErr (Option Response) × World :=
  let headers := defaultHeaders w.session.accessToken options
  match fetch srv Site.request url (withDefaults headers options) w with
  | (.error error, w1) => (.error error, w1)
  | (.ok response, w1) =>
    if response.status = 401 then
      let w2 := log "Token expirado, intentando renovar..." "warning" w1
      match refreshTokenIfNeeded srv w2 with
      | (.error error, w3) => (.error error, w3)
      | (.ok _, w3) =>
        if w3.session.accessToken.truthy then
          let headers1 := setKey "Authorization" ("Bearer " ++ w3.session.accessToken.toStr) headers
          match fetch srv Site.retry url (withDefaults headers1 options) w3 with
          | (.error error, w4) => (.error error, w4)
          | (.ok retried, w4) => (.ok (some retried), w4)
        else
          let w4 := log "No se pudo renovar el token, redirigiendo al login" "error" w3
          (.ok none, (logout srv w4).2)
    else (.ok (some response), w1)

/-! ## The object store of `firebase-config.js` -/

/-- The error a storage call rejects with. -/
structure StorageError where
  code : String
  message : String
  deriving DecidableEq, Repr

/-- A selected file: its name, MIME type and size in bytes. -/
structure File where
  name : String
  type : String
  size : Nat
  deriving DecidableEq, Repr

/-- The storage SDK: each call rejects or resolves, depending on its arguments
and on how many storage calls were made before it. -/
structure Bucket where
  uploadBytes : Nat → String → File → Except StorageError Unit
  getDownloadURL : Nat → String → Except StorageError String

/-- One call into the storage SDK. -/
inductive StorageCall where
  | upload (path : String) (file : File)
  | resolve (path : String)
  deriving DecidableEq, Repr

/-- What `firebase-config.js` leaves behind: the storage calls made, in order,
and the console lines written, each with its level. -/
structure Cloud where
  calls : List StorageCall
  console : List (String × String)
  deriving DecidableEq, Repr

def Cloud.start : Cloud := ⟨[], []⟩

def uploadBytes (bucket : Bucket) (path : String) (file : File) (c : Cloud) :
    Except StorageError Unit × Cloud :=
  (bucket.uploadBytes c.calls.length path file,
    { c with calls := c.calls ++ [StorageCall.upload path file] })

def getDownloadURL (bucket : Bucket) (path : String) (c : Cloud) :
    Except StorageError String × Cloud :=
  (bucket.getDownloadURL c.calls.length path,
    { c with calls := c.calls ++ [StorageCall.resolve path] })

def console (level text : String) (c : Cloud) : Cloud :=
  { c with console := c.console ++ [(level, text)] }

/-- The pieces of a character list between occurrences of `sep`. -/
def splitChars (sep : Char) : List Char → List (List Char)
  | [] => [[]]
  | c :: cs =>
    if c = sep then [] :: splitChars sep cs
    else
      match splitChars sep cs with
      | [] => [[c]]
      | seg :: segs => (c :: seg) :: segs

/-- The method `s.split(sep)` for a one-character separator. -/
def split (sep : Char) (s : String) : List String :=
  (splitChars sep s.data).map String.mk

/-- The method `xs.pop()`, already converted to a string as a template literal does. -/
def pop (xs : List String) : String :=
  match xs.getLast? with
  | some x => x
  | none => "undefined"

/-- The function `uploadImage`, lines 27 to 43. -/
def uploadImage (bucket : Bucket) (file : File) (isbn : String) (c : Cloud) :
    Except StorageError String × Cloud :=
  let fileExtension := pop (split '.' file.name)
  let imagePath := "books/" ++ isbn ++ "." ++ fileExtension
  match uploadBytes bucket imagePath file c with
  | (.error error, c1) => (.error error, console "error" ("Error uploading image: " ++ error.message) c1)
  | (.ok _, c1) =>
    match getDownloadURL bucket imagePath c1 with
    | (.error error, c2) => (.error error, console "error" ("Error uploading image: " ++ error.message) c2)
    | (.ok downloadURL, c2) => (.ok downloadURL, c2)

def extensions : List String := ["jpg", "jpeg", "png", "webp"]

/-- The `for` loop of `getImageUrl`, lines 47 to 66, over the extensions still to try. -/
def getImageUrlLoop (bucket : Bucket) (isbn : String) :
    List String → Cloud → Except StorageError (Option String) × Cloud
  | [], c => (.ok none, c)
  | ext :: rest, c =>
    let imagePath := "books/" ++ isbn ++ "." ++ ext
    match getDownloadURL bucket imagePath c with
    | (.ok url, c1) => (.ok (some url), c1)
    | (.error error, c1) =>
      let c2 :=
        if error.code ≠ "storage/object-not-found" then
          console "warn" ("Error checking for image " ++ isbn ++ "." ++ ext ++ ": " ++ error.message) c1
        else c1
      getImageUrlLoop bucket isbn rest c2

/-- The function `getImageUrl`, lines 44 to 67. -/
def getImageUrl (bucket : Bucket) (isbn : String) (c : Cloud) :
    Except StorageError (Option String) × Cloud :=
  getImageUrlLoop bucket isbn extensions c

/-! ## The XML decoder of `script.js` -/

/-- A DOM node of a parsed XML document. -/
inductive Node where
  | element (tagName : String) (childNodes : List Node)
  | text (data : String)
  | comment (data : String)
  deriving Repr

/-- The property `tagName` of an element: its qualified name. -/
def Node.tagName : Node → String
  | .element t _ => t
  | _ => ""

def Node.isElement : Node → Bool
  | .element _ _ => true
  | _ => false

/-- The property `children`: the child nodes that are elements. -/
def Node.children : Node → List Node
  | .element _ cs => cs.filter Node.isElement
  | _ => []

mutual
/-- The property `textContent`: the text of all descendants, in order. -/
def Node.textContent : Node → String
  | .element _ cs => textContentList cs
  | .text d => d
  | .comment _ => ""
/-- The concatenated `textContent` of a list of sibling nodes. -/
def textContentList : List Node → String
  | [] => ""
  | c :: cs => c.textContent ++ textContentList cs
end

mutual
/-- The elements of the tree under a node, itself included, in document order. -/
def Node.elements : Node → List Node
  | .element t cs => Node.element t cs :: elementsList cs
  | _ => []
/-- The elements under a list of sibling nodes, in document order. -/
def elementsList : List Node → List Node
  | [] => []
  | c :: cs => c.elements ++ elementsList cs
end

/-- The local part of a qualified name: what follows the colon, if there is one. -/
def localName (qualified : String) : String :=
  match qualified.data.dropWhile (fun ch => ch != ':') with
  | [] => qualified
  | _ :: rest => String.mk rest

/-- The method `xmlDoc.getElementsByTagName(name)`, for a document with root
`root`: the elements with that qualified name, in document order. -/
def getElementsByTagName (name : String) (root : Node) : List Node :=
  root.elements.filter (fun n => n.tagName = name)

/-- The method `xmlDoc.querySelector(name)` for a type selector: the first
element, in document order, with that local name. -/
def querySelector (name : String) (root : Node) : Option Node :=
  root.elements.find? (fun n => localName n.tagName = name)

/-- The write `book[key] = value` on an ordinary object with string `value`:
the key `__proto__` reaches the prototype setter, which ignores a string. -/
def assign (book : Obj) (key value : String) : Obj :=
  if key = "__proto__" then book else setKey key value book

/-- The inner loop of `parseXMLBooks`, lines 755 to 761: the record of one element. -/
def bookOf (libro : Node) : Obj :=
  libro.children.foldl (fun book child => assign book child.tagName child.textContent) []

/-- The `try` block of `parseXMLBooks`, lines 735 to 767. -/
def parseXMLBooksTry (parseFromString : String → Except JsErr Node) (xmlText : String) :
    Except JsErr (List Obj) :=
  match parseFromString xmlText with
  | .error error => .error error
  | .ok xmlDoc =>
    match querySelector "parsererror" xmlDoc with
    | some _ => .ok []
    | none => .ok ((getElementsByTagName "libro" xmlDoc).map bookOf)

/-- The function `parseXMLBooks`, lines 733 to 774: the `catch` returns `[]`.
The parser is the browser's `DOMParser` in `text/xml` mode. -/
def parseXMLBooks (parseFromString : String → Except JsErr Node) (xmlText : String) :
    Except JsErr (List Obj) :=
  match parseXMLBooksTry parseFromString xmlText with
  | .ok books => .ok books
  | .error _ => .ok []

/-! ## Concrete scenarios -/

/-- A server that answers every request with 401. -/
def always401 : Server := fun _ _ _ => .ok ⟨401, "", .ok JsonData.null⟩

/-- A page loaded with an expired access token and no refresh token in storage. -/
def expiredWorld : World :=
  World.load ⟨some "expired", none, some "ana"⟩ View.mainContent

/-- A page loaded with a full session in storage. -/
def loggedInWorld : World :=
  World.load ⟨some "old", some "r1", some "ana"⟩ View.mainContent

/-- A server that rejects the first request with 401, accepts the refresh with
the new token `new`, and answers every later request with 200. -/
def refreshingServer : Server := fun n _ _ =>
  if n = 0 then .ok ⟨401, "", .ok JsonData.null⟩
  else if n = 1 then .ok ⟨200, "", .ok (JsonData.obj [("access_token", JVal.str "new")])⟩
  else .ok ⟨200, "<libros/>", .ok JsonData.null⟩

/-- Caller options that bring one header of their own. -/
def tracedOptions : Options := ⟨some "GET", some [("X-Trace", "1")], none⟩

/-- The refresh endpoint. -/
def refreshUrl : String := API_BASE_URL ++ "/auth/refresh"

/-- The options of the refresh request for a given refresh token. -/
def refreshInit (refreshToken : JVal) : Options :=
  ⟨some "POST", some [("Authorization", "Bearer " ++ refreshToken.toStr)], none⟩

/-- The options of the first request of `makeAuthenticatedRequest`. -/
def firstInit (w : World) (options : Options) : Options :=
  withDefaults (defaultHeaders w.session.accessToken options) options

/-- The options of the retried request of `makeAuthenticatedRequest`, given the
access token held before the call and the one held after the refresh. -/
def retryInit (before after : JVal) (options : Options) : Options :=
  withDefaults
    (setKey "Authorization" ("Bearer " ++ after.toStr) (defaultHeaders before options)) options

/-- The world after the first request went out and the 401 was logged. -/
def afterFirst401 (url : String) (options : Options) (w : World) : World :=
  log "Token expirado, intentando renovar..." "warning"
    { w with sent := w.sent ++ [⟨Site.request, url, firstInit w options⟩] }

/-- What a retried `fetch` settles to, as `makeAuthenticatedRequest` returns it. -/
def returned (answer : Except JsErr Response) : Except JsErr (Option Response) :=
  match answer with
  | .error error => .error error
  | .ok retried => .ok (some retried)

/-- The logout endpoint. -/
def logoutUrl : String := API_BASE_URL ++ "/auth/logout"

/-- The requests a run of `makeAuthenticatedRequest` added to the trace. -/
def newRequests (srv : Server) (url : String) (options : Options) (w : World) : List Sent :=
  (makeAuthenticatedRequest srv url options w).2.sent.drop w.sent.length

/-- How many of the given requests went to `url`. -/
def requestsTo (url : String) (reqs : List Sent) : Nat :=
  reqs.countP (fun s => s.url = url)

/-- The catalog list endpoint, as `loadBooks` calls it. -/
def booksUrl : String := API_BASE_URL ++ "/api/books"

/-- A server that answers every request with 200 and an empty catalog. -/
def okServer : Server := fun _ _ _ => .ok ⟨200, "<libros/>", .ok JsonData.null⟩

/-- A server that answers every request with 500. -/
def brokenServer : Server := fun _ _ _ => .ok ⟨500, "", .ok JsonData.null⟩

/-- The storage key probed for an identifier and an extension. -/
def imageKey (isbn ext : String) : String := "books/" ++ isbn ++ "." ++ ext

/-- The four keys of an identifier, in the order of `extensions`. -/
def imageKeys (isbn : String) : List String := extensions.map (imageKey isbn)

/-- What the store answers when the extension number `i` of the list is
probed as the call number `i` of a run started in `c`. -/
def probeAnswer (bucket : Bucket) (isbn : String) (c : Cloud) (i : Nat) :
    Except StorageError String :=
  bucket.getDownloadURL (c.calls.length + i) (imageKey isbn (extensions.getD i ""))

/-- A store in which only the `png` cover of the book `978` exists; every
other key is reported as not found. -/
def pngOnlyBucket : Bucket :=
  { uploadBytes := fun _ _ _ => .ok ()
    getDownloadURL := fun _ path =>
      if path = "books/978.png" then .ok "https://img/978.png"
      else .error ⟨"storage/object-not-found", "not found"⟩ }

/-- A store that refuses every call for lack of permission. -/
def deniedBucket : Bucket :=
  { uploadBytes := fun _ _ _ => .error ⟨"storage/unauthorized", "denied"⟩
    getDownloadURL := fun _ _ => .error ⟨"storage/unauthorized", "denied"⟩ }

/-- A store that accepts every upload and resolves every key to a URL under
`https://img/`. -/
def openBucket : Bucket :=
  { uploadBytes := fun _ _ _ => .ok ()
    getDownloadURL := fun _ path => .ok ("https://img/" ++ path) }

/-- A selected image whose name has no dot. -/
def coverFile : File := ⟨"cover", "image/png", 2048⟩

/-- The property `childNodes` of a node. -/
def Node.childNodes : Node → List Node
  | .element _ cs => cs
  | _ => []

mutual
/-- The outermost elements named `name` under a node, itself included, in
document order: the search does not go inside an element of that name. -/
def Node.topLevel (name : String) : Node → List Node
  | .element t cs => if t = name then [Node.element t cs] else topLevelList name cs
  | _ => []
/-- The outermost elements named `name` under a list of sibling nodes. -/
def topLevelList (name : String) : List Node → List Node
  | [] => []
  | c :: cs => c.topLevel name ++ topLevelList name cs
end

/-- No element named `name` lies inside another element of that name. -/
def nestingFree (name : String) (root : Node) : Bool :=
  (getElementsByTagName name root).all
    (fun n => (elementsList n.childNodes).all (fun m => m.tagName != name))

/-- The field of a record as its element gives it: the text of the last child
element with that tag name. -/
def lastChildText (libro : Node) (key : String) : Option String :=
  ((libro.children.filter (fun child => child.tagName = key)).getLast?).map Node.textContent

/-- A catalog in which a `libro` element lies inside a record. -/
def nestedCatalog : Node :=
  .element "libros" [
    .element "libro" [
      .element "isbn" [.text "1"],
      .element "libro" [.element "isbn" [.text "2"]]]]

/-- A catalog of two records, the second without a price. -/
def flatCatalog : Node :=
  .element "libros" [
    .element "libro" [.element "isbn" [.text "1"], .element "precio" [.text "9.5"]],
    .element "libro" [.element "isbn" [.text "2"]]]

/-- The document a browser returns for malformed markup. -/
def errorDocument : Node :=
  .element "parsererror" [.text "XML Parsing Error: mismatched tag"]

/-! ## Error messages, file selection and login in `script.js` -/

/-- The `try` block of `parseXMLError`, lines 778 to 781. -/
def parseXMLErrorTry (parseFromString : String → Except JsErr Node) (xmlText : String) :
    Except JsErr String :=
  match parseFromString xmlText with
  | .error error => .error error
  | .ok xmlDoc =>
    match (getElementsByTagName "error" xmlDoc).head? with
    | some errorElement => .ok errorElement.textContent
    | none => .ok "Error desconocido"

/-- The function `parseXMLError`, lines 776 to 785: the `catch` returns a
message of its own. -/
def parseXMLError (parseFromString : String → Except JsErr Node) (xmlText : String) :
    Except JsErr String :=
  match parseXMLErrorTry parseFromString xmlText with
  | .ok message => .ok message
  | .error _ => .ok "Error al parsear mensaje de error"

/-- Whether a character list begins with the characters of `start`. -/
def startsWithChars : List Char → List Char → Bool
  | [], _ => true
  | _ :: _, [] => false
  | p :: ps, c :: cs => p == c && startsWithChars ps cs

/-- The method `s.startsWith(start)`. -/
def startsWith (s start : String) : Bool :=
  startsWithChars start.data s.data

/-- The file input of the create form and the preview next to it: the files
selected, and the file a `FileReader` was started on. -/
structure ImageForm where
  files : List File
  reading : Option File
  deriving DecidableEq, Repr

/-- The function `handleImageFileSelect`, lines 587 to 614, for a change event
on the file input: `event.target.value = ""` empties the selection. -/
def handleImageFileSelect (form : ImageForm) (w : World) : ImageForm × World :=
  match form.files.head? with
  | none => (form, w)
  | some file =>
    if !startsWith file.type "image/" then
      ({ form with files := [] }, log "Por favor, seleccione un archivo de imagen válido" "error" w)
    else if file.size > 5 * 1024 * 1024 then
      ({ form with files := [] }, log "La imagen es demasiado grande. Máximo 5MB" "error" w)
    else
      ({ form with reading := some file }, w)

def showMainContent (w : World) : World :=
  { w with view := View.mainContent }

/-- The options of the login request; `stringify` is the built-in
`JSON.stringify` on an object with string fields. -/
def loginInit (stringify : Obj → String) (username password : String) : Options :=
  ⟨some "POST", some [("Content-Type", "application/json")],
    some (stringify [("username", username), ("password", password)])⟩

/-- The function `login`, lines 64 to 102, for the values of the two input
fields. The call `loadBooks()` at line 95 is not awaited and its answer is
handled after `login` has returned: it is the separate step `loadBooks`. -/
def login (stringify : Obj → String) (srv : Server) (username password : String) (w : World) :
    Except JsErr Unit × World :=
  if username = "" ∨ password = "" then
    (.ok (), log "Por favor, complete todos los campos" "error" w)
  else
    match fetch srv Site.login (API_BASE_URL ++ "/auth/login")
        (loginInit stringify username password) w with
    | (.error error, w1) => (.ok (), log ("Error de conexión: " ++ error.message) "error" w1)
    | (.ok response, w1) =>
      match response.json with
      | .error error => (.ok (), log ("Error de conexión: " ++ error.message) "error" w1)
      | .ok data =>
        if response.ok then
          match data.get "access_token" with
          | .error error => (.ok (), log ("Error de conexión: " ++ error.message) "error" w1)
          | .ok access =>
            let w2 := { w1 with session := { w1.session with accessToken := access } }
            match data.get "refresh_token" with
            | .error error => (.ok (), log ("Error de conexión: " ++ error.message) "error" w2)
            | .ok refresh =>
              let w3 := { w2 with session := { w2.session with refreshToken := refresh } }
              match data.get "username" with
              | .error error => (.ok (), log ("Error de conexión: " ++ error.message) "error" w3)
              | .ok user =>
                let w4 := { w3 with session := { w3.session with currentUser := user } }
                let w5 := { w4 with localStorage :=
                  ⟨some w4.session.accessToken.toStr, some w4.session.refreshToken.toStr,
                    some w4.session.currentUser.toStr⟩ }
                (.ok (), showMainContent
                  (log ("Login exitoso para usuario: " ++ w5.session.currentUser.toStr) "success" w5))
        else
          match data.get "error" with
          | .error error => (.ok (), log ("Error de conexión: " ++ error.message) "error" w1)
          | .ok reason => (.ok (), log ("Error en login: " ++ reason.toStr) "error" w1)

/-- The function `loadBooks`, lines 219 to 229: the catalog list call. What it
does with a response, lines 231 to 258, only writes to the log pane and to
the book list and is left out. -/
def loadBooks (srv : Server) (w : World) : Except JsErr Unit × World :=
  let w1 := log "Solicitando libros al servidor..." "info" w
  match makeAuthenticatedRequest srv (API_BASE_URL ++ "/api/books") Options.empty w1 with
  | (.error error, w2) => (.ok (), log ("Error al cargar libros: " ++ error.message) "error" w2)
  | (.ok none, w2) => (.ok (), log "No se recibió respuesta del servidor" "error" w2)
  | (.ok (some _), w2) => (.ok (), w2)

/-- One of the four session operations. -/
inductive Op where
  | login (username password : String)
  | refresh
  | logout
  | request (url : String) (options : Options)
  deriving DecidableEq, Repr

/-- The world after one operation has run to its end. -/
def step (stringify : Obj → String) (srv : Server) (op : Op) (w : World) : World :=
  match op with
  | .login username password => (login stringify srv username password w).2
  | .refresh => (refreshTokenIfNeeded srv w).2
  | .logout => (logout srv w).2
  | .request url options => (makeAuthenticatedRequest srv url options w).2

/-- The world after a sequence of operations, first to last. -/
def run (stringify : Obj → String) (srv : Server) (ops : List Op) (w : World) : World :=
  ops.foldl (fun acc op => step stringify srv op acc) w

/-- Each session variable is what `getItem` gives for its slot. -/
def consistent (w : World) : Prop :=
  w.session.accessToken = JVal.ofItem w.localStorage.accessToken
    ∧ w.session.refreshToken = JVal.ofItem w.localStorage.refreshToken
    ∧ w.session.currentUser = JVal.ofItem w.localStorage.currentUser

instance (w : World) : Decidable (consistent w) := by
  unfold consistent
  exact inferInstance

/-- A read of `data.key` that yields a value yields a string. -/
def stringField (data : JsonData) (key : String) : Prop :=
  ∀ v, data.get key = .ok v → ∃ s, v = JVal.str s

/-- The login endpoint. -/
def loginUrl : String := API_BASE_URL ++ "/auth/login"

/-- Every successful answer of the login endpoint carries its three fields
as strings, and every successful answer of the refresh endpoint its token. -/
def stringTokens (srv : Server) : Prop :=
  (∀ n init response data, srv n loginUrl init = .ok response → response.ok = true →
      response.json = .ok data →
      stringField data "access_token" ∧ stringField data "refresh_token"
        ∧ stringField data "username")
    ∧ (∀ n init response data, srv n refreshUrl init = .ok response → response.ok = true →
      response.json = .ok data → stringField data "access_token")

/-- A parser that throws on every input. -/
def throwingParser : String → Except JsErr Node :=
  fun _ => .error ⟨"TypeError", "parser unavailable"⟩

/-- An error answer of the catalog API. -/
def errorAnswer : Node :=
  .element "response" [.element "error" [.text "ISBN duplicado"], .element "error" [.text "otro"]]

/-- A stand-in for `JSON.stringify` in the scenarios. -/
def sampleStringify : Obj → String :=
  fun fields => String.join (fields.map (fun kv => kv.1 ++ "=" ++ kv.2 ++ ";"))

/-- A page loaded with empty storage. -/
def freshWorld : World := World.load ⟨none, none, none⟩ View.loginForm

/-- A server whose answers are successful but carry no fields. -/
def tokenlessServer : Server := fun _ _ _ => .ok ⟨200, "", .ok (JsonData.obj [])⟩

/-- A server that accepts a login with the tokens `a1`, `r1` for the user `ana`. -/
def loginServer : Server := fun _ _ _ =>
  .ok ⟨200, "", .ok (JsonData.obj
    [("access_token", JVal.str "a1"), ("refresh_token", JVal.str "r1"),
      ("username", JVal.str "ana")])⟩

/-- A selection of one file of the given MIME type and size, nothing being read. -/
def picked (type : String) (size : Nat) : ImageForm :=
  ⟨[⟨"portada", type, size⟩], none⟩

/-- A session: log in, list the catalog, refresh, list again. -/
def sampleOps : List Op :=
  [Op.login "ana" "secreto", Op.request booksUrl Options.empty, Op.refresh,
    Op.request booksUrl Options.empty]

/-! ## Theorems -/

/-- C1. With an expired access token still held and no refresh token, a 401
answer does not end the session: the request is sent again with the old
token, the second 401 response is returned instead of `null`, and the session
stays in memory and in storage. -/
theorem makeAuthenticatedRequest_stale_token_not_logged_out :
    (makeAuthenticatedRequest always401 (API_BASE_URL ++ "/api/books") Options.empty expiredWorld).1
        = .ok (some ⟨401, "", .ok JsonData.null⟩)
      ∧ (makeAuthenticatedRequest always401 (API_BASE_URL ++ "/api/books") Options.empty expiredWorld).2.session
        = ⟨JVal.str "expired", JVal.null, JVal.str "ana"⟩
      ∧ (makeAuthenticatedRequest always401 (API_BASE_URL ++ "/api/books") Options.empty expiredWorld).2.localStorage
        = ⟨some "expired", none, some "ana"⟩
      ∧ (makeAuthenticatedRequest always401 (API_BASE_URL ++ "/api/books") Options.empty expiredWorld).2.sent.map Sent.site
        = [Site.request, Site.retry] := by
  decide

/-- Every run of `refreshTokenIfNeeded` returns normally, counts as one call,
and sends nothing or exactly the refresh request. -/
theorem refreshTokenIfNeeded_shape (srv : Server) (w : World) :
    (refreshTokenIfNeeded srv w).1 = .ok ()
      ∧ (refreshTokenIfNeeded srv w).2.refreshCalls = w.refreshCalls + 1
      ∧ ((refreshTokenIfNeeded srv w).2.sent = w.sent
          ∨ (w.session.refreshToken.truthy = true
              ∧ (refreshTokenIfNeeded srv w).2.sent
                = w.sent ++ [⟨Site.refresh, refreshUrl, refreshInit w.session.refreshToken⟩])) := by
  unfold refreshTokenIfNeeded fetch
  by_cases ht : w.session.refreshToken.truthy = false
  · simp [ht]
  · have ht1 : w.session.refreshToken.truthy = true := by simpa using ht
    simp only [ht1]
    cases hs : srv w.sent.length (API_BASE_URL ++ "/auth/refresh")
        ⟨some "POST", some [("Authorization", "Bearer " ++ w.session.refreshToken.toStr)], none⟩ with
    | error e => simp [log, refreshUrl, refreshInit]
    | ok response =>
      by_cases hok : response.ok = true
      · cases hj : response.json >>= JsonData.get "access_token" with
        | error e => simp [hok, hj, log, refreshUrl, refreshInit]
        | ok token => simp [hok, hj, log, refreshUrl, refreshInit]
      · simp [hok, log, refreshUrl, refreshInit]

/-- After a 401 answer the wrapper refreshes, then either retries or logs out,
depending only on whether an access token is held after the refresh. -/
theorem makeAuthenticatedRequest_unfold_401 (srv : Server) (url : String) (options : Options)
    (w : World) (r : Response)
    (hfirst : srv w.sent.length url (firstInit w options) = .ok r) (h401 : r.status = 401) :
    makeAuthenticatedRequest srv url options w =
      if (refreshTokenIfNeeded srv (afterFirst401 url options w)).2.session.accessToken.truthy = true then
        (returned (srv (refreshTokenIfNeeded srv (afterFirst401 url options w)).2.sent.length url
            (retryInit w.session.accessToken
              (refreshTokenIfNeeded srv (afterFirst401 url options w)).2.session.accessToken options)),
          { (refreshTokenIfNeeded srv (afterFirst401 url options w)).2 with
            sent := (refreshTokenIfNeeded srv (afterFirst401 url options w)).2.sent ++
              [⟨Site.retry, url, retryInit w.session.accessToken
                (refreshTokenIfNeeded srv (afterFirst401 url options w)).2.session.accessToken options⟩] })
      else
        (.ok none,
          (logout srv (log "No se pudo renovar el token, redirigiendo al login" "error"
            (refreshTokenIfNeeded srv (afterFirst401 url options w)).2)).2) := by
  have h1 := (refreshTokenIfNeeded_shape srv (afterFirst401 url options w)).1
  unfold makeAuthenticatedRequest fetch
  simp only [firstInit] at hfirst
  simp only [hfirst, h401, if_true]
  simp only [afterFirst401, firstInit] at h1 ⊢
  generalize refreshTokenIfNeeded srv _ = R at h1 ⊢
  obtain ⟨res, w3⟩ := R
  simp only at h1
  subst h1
  by_cases ht : w3.session.accessToken.truthy = true
  · simp only [ht, if_true, retryInit, returned]
    cases srv w3.sent.length url _ <;> rfl
  · simp [ht]

/-- Of three entries of which the middle one fails the test, at most two pass. -/
theorem countP_skip_middle {α : Type} (p : α → Bool) (a b c : α) (hb : p b = false) :
    List.countP p ([a, b] ++ [c]) ≤ 2 := by
  have h : List.countP p ([a, b] ++ [c]) = List.countP p [a, c] := by
    simp [List.countP_cons, hb]
  rw [h]
  exact le_trans (List.countP_le_length _) (by simp)

/-- A remark on the trace: when the wrapper is called on the refresh endpoint
itself and answered with 401, three entries of the trace have that url, the
middle one being the refresh call and not a send of the original request. -/
theorem makeAuthenticatedRequest_refresh_url_thrice :
    refreshingServer loggedInWorld.sent.length refreshUrl (firstInit loggedInWorld Options.empty)
        = .ok ⟨401, "", .ok JsonData.null⟩
      ∧ ¬ requestsTo refreshUrl (newRequests refreshingServer refreshUrl Options.empty loggedInWorld) ≤ 2 := by
  decide

/-- C2. When the first response is 401, `refreshTokenIfNeeded` is entered
exactly once; the trace grows by the first request, then at most the one
refresh request, then either one retry of the original request, whose outcome
is returned as is whatever its status, or the logout request, with `null`
returned; so for every url the original request is sent at most twice, and a
url other than the refresh endpoint occurs at most twice in the whole trace. -/
theorem makeAuthenticatedRequest_on_401 (srv : Server) (url : String) (options : Options)
    (w : World) (r : Response)
    (hfirst : srv w.sent.length url (firstInit w options) = .ok r) (h401 : r.status = 401) :
    (makeAuthenticatedRequest srv url options w).2.refreshCalls = w.refreshCalls + 1
      ∧ ∃ mid fin : List Sent,
          (makeAuthenticatedRequest srv url options w).2.sent
              = w.sent ++ (⟨Site.request, url, firstInit w options⟩ :: (mid ++ fin))
            ∧ (mid = [] ∨ mid = [⟨Site.refresh, refreshUrl, refreshInit w.session.refreshToken⟩])
            ∧ ((∃ init, fin = [⟨Site.retry, url, init⟩]
                  ∧ (makeAuthenticatedRequest srv url options w).1
                    = returned (srv (w.sent.length + 1 + mid.length) url init))
                ∨ (∃ init, fin = [⟨Site.logout, logoutUrl, init⟩]
                  ∧ (makeAuthenticatedRequest srv url options w).1 = .ok none))
            ∧ ((⟨Site.request, url, firstInit w options⟩ :: (mid ++ fin)).countP
                (fun s => s.site = Site.request ∨ s.site = Site.retry) ≤ 2)
            ∧ (url ≠ refreshUrl →
                requestsTo url (newRequests srv url options w) ≤ 2) := by
  have hu := makeAuthenticatedRequest_unfold_401 srv url options w r hfirst h401
  obtain ⟨_, hcalls, hsent⟩ := refreshTokenIfNeeded_shape srv (afterFirst401 url options w)
  have hbase : (afterFirst401 url options w).sent
      = w.sent ++ [⟨Site.request, url, firstInit w options⟩] := rfl
  have hbc : (afterFirst401 url options w).refreshCalls = w.refreshCalls := rfl
  have hrt : (afterFirst401 url options w).session.refreshToken = w.session.refreshToken := rfl
  rw [hbc] at hcalls
  rw [hbase, hrt] at hsent
  unfold newRequests requestsTo
  rw [hu]
  generalize refreshTokenIfNeeded srv (afterFirst401 url options w) = R at hcalls hsent ⊢
  obtain ⟨res, w3⟩ := R
  simp only at hcalls hsent ⊢
  by_cases ht : w3.session.accessToken.truthy = true
  · simp only [ht, if_true]
    refine ⟨hcalls, ?_⟩
    rcases hsent with hs | ⟨_, hs⟩
    · refine ⟨[], [⟨Site.retry, url, retryInit w.session.accessToken w3.session.accessToken options⟩],
        ?_, Or.inl rfl, Or.inl ⟨_, rfl, ?_⟩, ?_, ?_⟩
      · simp [hs]
      · simp [hs]
      · simp [List.countP_cons]
      · intro _
        simp [hs, List.countP_cons]
    · refine ⟨[⟨Site.refresh, refreshUrl, refreshInit w.session.refreshToken⟩],
        [⟨Site.retry, url, retryInit w.session.accessToken w3.session.accessToken options⟩],
        ?_, Or.inr rfl, Or.inl ⟨_, rfl, ?_⟩, ?_, ?_⟩
      · simp [hs]
      · simp [hs]
      · simp [List.countP_cons]
      · intro hne
        have hne2 : ¬ refreshUrl = url := fun h => hne h.symm
        simp [hs, List.countP_cons, hne2]
  · simp only [ht]
    have hlo : ∀ v : World, (logout srv v).2.refreshCalls = v.refreshCalls
        ∧ ∃ init, (logout srv v).2.sent = v.sent ++ [⟨Site.logout, logoutUrl, init⟩] := by
      intro v
      unfold logout fetch
      cases srv v.sent.length (API_BASE_URL ++ "/auth/logout")
        ⟨some "POST", some [("Authorization", "Bearer " ++ v.session.accessToken.toStr)], none⟩ <;>
        simp [log, showLoginForm, logoutUrl]
    obtain ⟨hlc, init, hls⟩ := hlo (log "No se pudo renovar el token, redirigiendo al login" "error" w3)
    simp only [Bool.false_eq_true, if_false]
    refine ⟨by rw [hlc]; exact hcalls, ?_⟩
    have hlogsent : (log "No se pudo renovar el token, redirigiendo al login" "error" w3).sent
        = w3.sent := rfl
    rw [hlogsent] at hls
    rcases hsent with hs | ⟨_, hs⟩
    · refine ⟨[], [⟨Site.logout, logoutUrl, init⟩], ?_, Or.inl rfl, Or.inr ⟨_, rfl, by first | rfl | trivial⟩, ?_, ?_⟩
      · simp [hls, hs]
      · simp [List.countP_cons]
      · intro _
        rw [hls, hs]
        simp only [List.append_assoc, List.drop_left]
        exact le_trans (List.countP_le_length _) (by simp)
    · refine ⟨[⟨Site.refresh, refreshUrl, refreshInit w.session.refreshToken⟩],
        [⟨Site.logout, logoutUrl, init⟩], ?_, Or.inr rfl, Or.inr ⟨_, rfl, by first | rfl | trivial⟩, ?_, ?_⟩
      · simp [hls, hs]
      · simp [List.countP_cons]
      · intro hne
        have hne2 : ¬ refreshUrl = url := fun h => hne h.symm
        rw [hls, hs]
        simp only [List.append_assoc, List.drop_left]
        exact countP_skip_middle _ _ _ _ (by simp [hne2])

/-- Witness of C2: the catalog list call is answered with 401, the
refresh succeeds, and the page has entered `refreshTokenIfNeeded` once. -/
theorem makeAuthenticatedRequest_on_401_witness :
    refreshingServer loggedInWorld.sent.length booksUrl (firstInit loggedInWorld Options.empty)
        = .ok ⟨401, "", .ok JsonData.null⟩
      ∧ (makeAuthenticatedRequest refreshingServer booksUrl Options.empty loggedInWorld).2.refreshCalls
        = loggedInWorld.refreshCalls + 1 :=
  ⟨by decide,
    (makeAuthenticatedRequest_on_401 refreshingServer booksUrl Options.empty loggedInWorld
      ⟨401, "", .ok JsonData.null⟩ (by decide) rfl).1⟩

/-- C3. When the first response has a status other than 401, the wrapper
returns that response unchanged and the world differs only by the one request
in the trace: no refresh call, no retry, session and storage as before. -/
theorem makeAuthenticatedRequest_non_401 (srv : Server) (url : String) (options : Options)
    (w : World) (r : Response)
    (hfirst : srv w.sent.length url (firstInit w options) = .ok r) (hne : r.status ≠ 401) :
    (makeAuthenticatedRequest srv url options w).1 = .ok (some r)
      ∧ (makeAuthenticatedRequest srv url options w).2.sent
        = w.sent ++ [⟨Site.request, url, firstInit w options⟩]
      ∧ (makeAuthenticatedRequest srv url options w).2.refreshCalls = w.refreshCalls
      ∧ (makeAuthenticatedRequest srv url options w).2.session = w.session
      ∧ (makeAuthenticatedRequest srv url options w).2.localStorage = w.localStorage
      ∧ (makeAuthenticatedRequest srv url options w).2.view = w.view := by
  unfold makeAuthenticatedRequest fetch
  simp only [firstInit] at hfirst
  simp [hfirst, hne, firstInit]

/-- Witness of C3: a 500 answer to the catalog list call comes back as is. -/
theorem makeAuthenticatedRequest_non_401_witness :
    brokenServer loggedInWorld.sent.length booksUrl (firstInit loggedInWorld Options.empty)
        = .ok ⟨500, "", .ok JsonData.null⟩
      ∧ (makeAuthenticatedRequest brokenServer booksUrl Options.empty loggedInWorld).1
        = .ok (some ⟨500, "", .ok JsonData.null⟩) :=
  ⟨by decide,
    (makeAuthenticatedRequest_non_401 brokenServer booksUrl Options.empty loggedInWorld
      ⟨500, "", .ok JsonData.null⟩ (by decide) (by decide)).1⟩

/-- When the caller brings headers of its own, they are the headers of the
first request and of the retry: the spread of `options` replaces the merged
`headers` object as a whole. -/
theorem caller_headers_replace_defaults (w : World) (options : Options) (h : Obj) (after : JVal)
    (hh : options.headers = some h) :
    (firstInit w options).headers = some h
      ∧ (retryInit w.session.accessToken after options).headers = some h := by
  simp [firstInit, retryInit, withDefaults, hh]

/-- Without caller headers the first request carries the two defaults and the
retry carries the bearer header of the token held after the refresh. -/
theorem no_caller_headers_defaults (w : World) (options : Options) (after : JVal)
    (hh : options.headers = none) :
    (firstInit w options).headers
        = some [("Authorization", "Bearer " ++ w.session.accessToken.toStr),
            ("Content-Type", "application/json")]
      ∧ (retryInit w.session.accessToken after options).headers
        = some [("Authorization", "Bearer " ++ after.toStr), ("Content-Type", "application/json")] := by
  simp [firstInit, retryInit, withDefaults, defaultHeaders, spread, setKey, hh]

/-- C4. With a caller header `X-Trace`, a 401 answer and a refresh that
yields the token `new`, the retried request carries the caller header only:
no `Authorization` header at all, although the new token is held. -/
theorem makeAuthenticatedRequest_retry_drops_bearer :
    (makeAuthenticatedRequest refreshingServer booksUrl tracedOptions loggedInWorld).2.session.accessToken
        = JVal.str "new"
      ∧ (makeAuthenticatedRequest refreshingServer booksUrl tracedOptions loggedInWorld).2.sent
        = [⟨Site.request, booksUrl, ⟨some "GET", some [("X-Trace", "1")], none⟩⟩,
            ⟨Site.refresh, refreshUrl, ⟨some "POST", some [("Authorization", "Bearer r1")], none⟩⟩,
            ⟨Site.retry, booksUrl, ⟨some "GET", some [("X-Trace", "1")], none⟩⟩] := by
  decide

/-- C5. With a caller header `X-Trace` and nothing else, the first request
carries that header only: neither the bearer header nor the JSON content type. -/
theorem makeAuthenticatedRequest_first_drops_defaults :
    (makeAuthenticatedRequest okServer booksUrl tracedOptions loggedInWorld).2.sent
        = [⟨Site.request, booksUrl, ⟨some "GET", some [("X-Trace", "1")], none⟩⟩]
      ∧ (firstInit loggedInWorld tracedOptions).headers.bind (getKey "Authorization") = none
      ∧ (firstInit loggedInWorld tracedOptions).headers.bind (getKey "Content-Type") = none
      ∧ getKey "Authorization" (defaultHeaders loggedInWorld.session.accessToken tracedOptions)
        = some "Bearer old" := by
  decide

/-- C6. The function `refreshTokenIfNeeded` never throws; without a refresh
token it sends nothing and leaves session and storage alone; when the refresh
request is rejected at the network level or answered with a status outside
200 to 299, session and storage are as before. -/
theorem refreshTokenIfNeeded_failure_keeps_session (srv : Server) (w : World) :
    (refreshTokenIfNeeded srv w).1 = .ok ()
      ∧ (w.session.refreshToken.truthy = false →
          (refreshTokenIfNeeded srv w).2.sent = w.sent
            ∧ (refreshTokenIfNeeded srv w).2.session = w.session
            ∧ (refreshTokenIfNeeded srv w).2.localStorage = w.localStorage)
      ∧ (∀ e, srv w.sent.length refreshUrl (refreshInit w.session.refreshToken) = .error e →
          (refreshTokenIfNeeded srv w).2.session = w.session
            ∧ (refreshTokenIfNeeded srv w).2.localStorage = w.localStorage)
      ∧ (∀ r, srv w.sent.length refreshUrl (refreshInit w.session.refreshToken) = .ok r →
          r.ok = false →
          (refreshTokenIfNeeded srv w).2.session = w.session
            ∧ (refreshTokenIfNeeded srv w).2.localStorage = w.localStorage) := by
  refine ⟨(refreshTokenIfNeeded_shape srv w).1, ?_, ?_, ?_⟩
  · intro ht
    unfold refreshTokenIfNeeded
    simp [ht]
  · intro e he
    unfold refreshTokenIfNeeded fetch
    simp only [refreshUrl, refreshInit] at he
    by_cases ht : w.session.refreshToken.truthy = false
    · simp [ht]
    · simp [ht, he, log]
  · intro r hr hok
    unfold refreshTokenIfNeeded fetch
    simp only [refreshUrl, refreshInit] at hr
    by_cases ht : w.session.refreshToken.truthy = false
    · simp [ht]
    · simp [ht, hr, hok, log]

/-- Witness of C6: the refresh of a full session is answered with 500, and
the session in memory is what it was. -/
theorem refreshTokenIfNeeded_failure_keeps_session_witness :
    brokenServer loggedInWorld.sent.length refreshUrl (refreshInit loggedInWorld.session.refreshToken)
        = .ok ⟨500, "", .ok JsonData.null⟩
      ∧ (refreshTokenIfNeeded brokenServer loggedInWorld).2.session = loggedInWorld.session
      ∧ (refreshTokenIfNeeded brokenServer loggedInWorld).2.localStorage = loggedInWorld.localStorage :=
  ⟨by decide,
    (refreshTokenIfNeeded_failure_keeps_session brokenServer loggedInWorld).2.2.2
      ⟨500, "", .ok JsonData.null⟩ (by decide) (by decide)⟩

/-- A probe that resolves ends the loop with that URL. -/
theorem getImageUrlLoop_hit (bucket : Bucket) (isbn ext : String) (rest : List String)
    (c : Cloud) (url : String)
    (h : bucket.getDownloadURL c.calls.length (imageKey isbn ext) = .ok url) :
    getImageUrlLoop bucket isbn (ext :: rest) c
      = (.ok (some url), { c with calls := c.calls ++ [StorageCall.resolve (imageKey isbn ext)] }) := by
  simp only [imageKey] at h
  simp [getImageUrlLoop, getDownloadURL, h, imageKey]

/-- A probe that fails is recorded and the loop goes on with the next extension. -/
theorem getImageUrlLoop_miss (bucket : Bucket) (isbn ext : String) (rest : List String)
    (c : Cloud) (e : StorageError)
    (h : bucket.getDownloadURL c.calls.length (imageKey isbn ext) = .error e) :
    ∃ c2 : Cloud, c2.calls = c.calls ++ [StorageCall.resolve (imageKey isbn ext)]
      ∧ getImageUrlLoop bucket isbn (ext :: rest) c = getImageUrlLoop bucket isbn rest c2 := by
  simp only [imageKey] at h
  by_cases hc : e.code = "storage/object-not-found"
  · exact ⟨{ c with calls := c.calls ++ [StorageCall.resolve (imageKey isbn ext)] }, rfl, by
      simp [getImageUrlLoop, getDownloadURL, h, hc, imageKey]⟩
  · exact ⟨console "warn" ("Error checking for image " ++ isbn ++ "." ++ ext ++ ": " ++ e.message)
      { c with calls := c.calls ++ [StorageCall.resolve (imageKey isbn ext)] }, rfl, by
      simp [getImageUrlLoop, getDownloadURL, h, hc, imageKey]⟩

/-- The loop over any list of extensions: it never throws, and it either
stops at the first extension that resolves, having probed the keys up to it,
or runs through the whole list and returns `null`. -/
theorem getImageUrlLoop_spec (bucket : Bucket) (isbn : String) (exts : List String) (c : Cloud) :
    (∃ i url, i < exts.length
        ∧ bucket.getDownloadURL (c.calls.length + i) (imageKey isbn (exts.getD i "")) = .ok url
        ∧ (∀ j, j < i → ∃ e,
            bucket.getDownloadURL (c.calls.length + j) (imageKey isbn (exts.getD j "")) = .error e)
        ∧ (getImageUrlLoop bucket isbn exts c).1 = .ok (some url)
        ∧ (getImageUrlLoop bucket isbn exts c).2.calls
          = c.calls ++ ((exts.map (imageKey isbn)).take (i + 1)).map StorageCall.resolve)
      ∨ ((∀ j, j < exts.length → ∃ e,
            bucket.getDownloadURL (c.calls.length + j) (imageKey isbn (exts.getD j "")) = .error e)
        ∧ (getImageUrlLoop bucket isbn exts c).1 = .ok none
        ∧ (getImageUrlLoop bucket isbn exts c).2.calls
          = c.calls ++ (exts.map (imageKey isbn)).map StorageCall.resolve) := by
  induction exts generalizing c with
  | nil =>
    right
    exact ⟨fun j hj => absurd hj (by simp), rfl, by simp [getImageUrlLoop]⟩
  | cons ext rest ih =>
    cases h : bucket.getDownloadURL c.calls.length (imageKey isbn ext) with
    | ok url =>
      left
      refine ⟨0, url, by simp, by simpa using h, fun j hj => absurd hj (by omega), ?_, ?_⟩
      · rw [getImageUrlLoop_hit bucket isbn ext rest c url h]
      · rw [getImageUrlLoop_hit bucket isbn ext rest c url h]
        simp
    | error e =>
      obtain ⟨c2, hc2, hstep⟩ := getImageUrlLoop_miss bucket isbn ext rest c e h
      have hlen : c2.calls.length = c.calls.length + 1 := by simp [hc2]
      rw [hstep]
      rcases ih c2 with ⟨i, url, hi, hok, hbefore, hres, hcalls⟩ | ⟨hall, hres, hcalls⟩
      · left
        refine ⟨i + 1, url, by simpa using hi, ?_, ?_, hres, ?_⟩
        · rw [hlen] at hok
          simpa [Nat.add_assoc, Nat.add_comm 1 i] using hok
        · intro j hj
          cases j with
          | zero => exact ⟨e, by simpa using h⟩
          | succ k =>
            obtain ⟨e2, he2⟩ := hbefore k (by omega)
            rw [hlen] at he2
            exact ⟨e2, by simpa [Nat.add_assoc, Nat.add_comm 1 k] using he2⟩
        · rw [hcalls, hc2]
          simp
      · right
        refine ⟨?_, hres, ?_⟩
        · intro j hj
          cases j with
          | zero => exact ⟨e, by simpa using h⟩
          | succ k =>
            obtain ⟨e2, he2⟩ := hall k (by simpa using hj)
            rw [hlen] at he2
            exact ⟨e2, by simpa [Nat.add_assoc, Nat.add_comm 1 k] using he2⟩
        · rw [hcalls, hc2]
          simp

/-- C7. For every identifier and every behaviour of the store, `getImageUrl`
never throws; if the extension number `i` of jpg, jpeg, png, webp is the
first whose key resolves, it returns that URL and has probed exactly the
first `i + 1` keys, in order; if no key resolves, for whatever reason, it
returns `null` after probing exactly the four keys. -/
theorem getImageUrl_first_hit (bucket : Bucket) (isbn : String) (c : Cloud) :
    (∃ v, (getImageUrl bucket isbn c).1 = .ok v)
      ∧ (∀ i url, i < 4 → probeAnswer bucket isbn c i = .ok url →
          (∀ j, j < i → ∃ e, probeAnswer bucket isbn c j = .error e) →
          (getImageUrl bucket isbn c).1 = .ok (some url)
            ∧ (getImageUrl bucket isbn c).2.calls
              = c.calls ++ ((imageKeys isbn).take (i + 1)).map StorageCall.resolve)
      ∧ ((∀ j, j < 4 → ∃ e, probeAnswer bucket isbn c j = .error e) →
          (getImageUrl bucket isbn c).1 = .ok none
            ∧ (getImageUrl bucket isbn c).2.calls
              = c.calls ++ (imageKeys isbn).map StorageCall.resolve
            ∧ (getImageUrl bucket isbn c).2.calls.length = c.calls.length + 4) := by
  have hspec := getImageUrlLoop_spec bucket isbn extensions c
  have hlen : extensions.length = 4 := rfl
  unfold getImageUrl probeAnswer imageKeys
  rw [hlen] at hspec
  refine ⟨?_, ?_, ?_⟩
  · rcases hspec with ⟨_, url, _, _, _, hres, _⟩ | ⟨_, hres, _⟩
    · exact ⟨_, hres⟩
    · exact ⟨_, hres⟩
  · intro i url hi hok hbefore
    rcases hspec with ⟨k, url2, _, hok2, hbefore2, hres, hcalls⟩ | ⟨hall, _, _⟩
    · have hik : i = k := by
        rcases Nat.lt_trichotomy i k with hlt | heq | hgt
        · obtain ⟨e, he⟩ := hbefore2 i hlt
          rw [hok] at he
          cases he
        · exact heq
        · obtain ⟨e, he⟩ := hbefore k hgt
          rw [hok2] at he
          cases he
      subst hik
      rw [hok] at hok2
      cases hok2
      exact ⟨hres, hcalls⟩
    · obtain ⟨e, he⟩ := hall i hi
      rw [hok] at he
      cases he
  · intro hall
    rcases hspec with ⟨k, url2, hk, hok2, _, _, _⟩ | ⟨_, hres, hcalls⟩
    · obtain ⟨e, he⟩ := hall k hk
      rw [hok2] at he
      cases he
    · refine ⟨hres, hcalls, ?_⟩
      rw [hcalls]
      simp [extensions]

/-- Witness of C7: only the png cover exists, so the third probe resolves
after two misses and the webp key is never probed. -/
theorem getImageUrl_first_hit_witness :
    probeAnswer pngOnlyBucket "978" Cloud.start 2 = .ok "https://img/978.png"
      ∧ (getImageUrl pngOnlyBucket "978" Cloud.start).1 = .ok (some "https://img/978.png")
      ∧ (getImageUrl pngOnlyBucket "978" Cloud.start).2.calls
        = Cloud.start.calls ++ ((imageKeys "978").take (2 + 1)).map StorageCall.resolve :=
  ⟨by decide,
    (getImageUrl_first_hit pngOnlyBucket "978" Cloud.start).2.1 2 "https://img/978.png"
      (by decide) (by decide)
      (fun j hj => ⟨⟨"storage/object-not-found", "not found"⟩, by
        have h : j = 0 ∨ j = 1 := by omega
        rcases h with h | h <;> subst h <;> decide⟩)⟩

/-- A character list without the separator is a single piece. -/
theorem splitChars_without_sep (sep : Char) (cs : List Char) (h : sep ∉ cs) :
    splitChars sep cs = [cs] := by
  induction cs with
  | nil => rfl
  | cons c rest ih =>
    have hc : ¬ c = sep := fun hcs => h (by simp [hcs])
    have hr : sep ∉ rest := fun hm => h (by simp [hm])
    simp [splitChars, hc, ih hr]

/-- Splitting never yields an empty array. -/
theorem splitChars_ne_nil (sep : Char) (cs : List Char) : splitChars sep cs ≠ [] := by
  cases cs with
  | nil => simp [splitChars]
  | cons c rest =>
    by_cases hc : c = sep
    · simp [splitChars, hc]
    · cases hr : splitChars sep rest <;> simp [splitChars, hc, hr]

/-- A split at a separator: at least one piece, then the pieces of what follows it. -/
theorem splitChars_after (sep : Char) (before after : List Char) :
    ∃ seg segs, splitChars sep (before ++ sep :: after) = seg :: (segs ++ splitChars sep after) := by
  induction before with
  | nil => exact ⟨[], [], by simp [splitChars]⟩
  | cons c rest ih =>
    obtain ⟨seg, segs, hsegs⟩ := ih
    by_cases hc : c = sep
    · exact ⟨[], seg :: segs, by simp [splitChars, hc, ← hsegs]⟩
    · exact ⟨c :: seg, segs, by simp [splitChars, hc, hsegs]⟩

/-- The last element of a list that ends in a nonempty list. -/
theorem getLast_append_cons {α : Type} (xs : List α) (y : α) (ys : List α) :
    (xs ++ y :: ys).getLast? = (y :: ys).getLast? := by
  induction xs with
  | nil => rfl
  | cons x rest ih =>
    cases hr : rest ++ y :: ys with
    | nil => simp at hr
    | cons z zs =>
      rw [hr] at ih
      simp only [List.cons_append, hr, List.getLast?_cons_cons, ih]

/-- The last piece of a split is the last piece of what follows a separator. -/
theorem splitChars_getLast_after (sep : Char) (before after : List Char) :
    (splitChars sep (before ++ sep :: after)).getLast? = (splitChars sep after).getLast? := by
  obtain ⟨seg, segs, hsegs⟩ := splitChars_after sep before after
  rw [hsegs]
  cases hr : splitChars sep after with
  | nil => exact absurd hr (splitChars_ne_nil sep after)
  | cons s0 more => exact getLast_append_cons (seg :: segs) s0 more

/-- For a file name without a dot, the derived extension is the whole name. -/
theorem pop_split_without_dot (name : String) (h : '.' ∉ name.data) :
    pop (split '.' name) = name := by
  simp [pop, split, splitChars_without_sep '.' name.data h]

/-- For a file name with a dot, the derived extension is the text after the last dot. -/
theorem pop_split_with_dot (stem ext : List Char) (h : '.' ∉ ext) :
    pop (split '.' (String.mk (stem ++ '.' :: ext))) = String.mk ext := by
  have hlast := splitChars_getLast_after '.' stem ext
  rw [splitChars_without_sep '.' ext h] at hlast
  simp only [pop, split, List.getLast?_map, hlast]
  simp

/-- The key of `uploadImage` is `books/`, the identifier, a dot and the last
piece of the file name; a failed upload or a failed resolution is rethrown as
is, and on success the URL resolved for that same key is returned. -/
theorem uploadImage_key (bucket : Bucket) (file : File) (isbn : String) (c : Cloud) :
    (uploadImage bucket file isbn c).1
      = (bucket.uploadBytes c.calls.length
            ("books/" ++ isbn ++ "." ++ pop (split '.' file.name)) file).bind
          (fun _ => bucket.getDownloadURL (c.calls.length + 1)
            ("books/" ++ isbn ++ "." ++ pop (split '.' file.name))) := by
  unfold uploadImage uploadBytes getDownloadURL
  cases h1 : bucket.uploadBytes c.calls.length
      ("books/" ++ isbn ++ "." ++ pop (split '.' file.name)) file with
  | error e => simp [Except.bind, h1]
  | ok u =>
    cases h2 : bucket.getDownloadURL (c.calls.length + 1)
        ("books/" ++ isbn ++ "." ++ pop (split '.' file.name)) with
    | error e => simp [Except.bind, h1, h2]
    | ok url => simp [Except.bind, h1, h2]

/-- C8. A file named `cover`, which has no extension, is uploaded for the
identifier `123` under the key `books/123.cover`: the whole file name stands
where the extension belongs. -/
theorem uploadImage_name_without_dot :
    uploadImage openBucket coverFile "123" Cloud.start
      = (.ok "https://img/books/123.cover",
          ⟨[StorageCall.upload "books/123.cover" coverFile, StorageCall.resolve "books/123.cover"],
            []⟩) := by
  decide

/-- C9, as stated, fails: a `libro` element inside a record yields a record of
its own, so one top-level `libro` element gives two records. -/
theorem parseXMLBooks_nested_libro :
    parseXMLBooks (fun _ => .ok nestedCatalog) "<libros>...</libros>"
        = .ok [[("isbn", "1"), ("libro", "2")], [("isbn", "2")]]
      ∧ (querySelector "parsererror" nestedCatalog).isNone = true
      ∧ (nestedCatalog.topLevel "libro").length = 1 := by
  decide

/-- Reading a key after a property write. -/
theorem getKey_setKey (k key value : String) (o : Obj) :
    getKey k (setKey key value o) = if key = k then some value else getKey k o := by
  induction o with
  | nil => simp [setKey, getKey]
  | cons kv rest ih =>
    obtain ⟨k0, v0⟩ := kv
    by_cases h0 : k0 = key
    · subst h0
      by_cases hk : k0 = k <;> simp [setKey, getKey, hk]
    · by_cases hk : k0 = k
      · subst hk
        have hne : ¬ key = k0 := fun h => h0 h.symm
        simp [setKey, getKey, h0, hne]
      · simp [setKey, getKey, h0, hk, ih]

/-- Reading a key after a run of writes from a list of children: the last
child with that tag name decides, unless the key is `__proto__`. -/
theorem getKey_foldl_assign (k : String) (children : List Node) (book : Obj) :
    getKey k (children.foldl (fun b child => assign b child.tagName child.textContent) book)
      = if k = "__proto__" then getKey k book
        else
          match (children.filter (fun child => child.tagName = k)).getLast? with
          | some child => some child.textContent
          | none => getKey k book := by
  induction children using List.reverseRecOn generalizing book with
  | nil => simp
  | append_singleton rest child ih =>
    rw [List.foldl_append]
    simp only [List.foldl_cons, List.foldl_nil]
    have ih := ih book
    generalize rest.foldl (fun b child => assign b child.tagName child.textContent) book = done
      at ih ⊢
    unfold assign
    by_cases hp : child.tagName = "__proto__"
    · rw [if_pos hp, ih]
      by_cases hk : k = "__proto__"
      · simp [hk]
      · have hne : ¬ child.tagName = k := fun h => hk (h.symm.trans hp)
        simp [hk, List.filter_append, hne]
    · rw [if_neg hp, getKey_setKey, ih]
      by_cases hk : k = "__proto__"
      · subst hk
        simp [hp]
      · by_cases hck : child.tagName = k
        · simp [hk, hck, List.filter_append]
        · simp [hk, hck, List.filter_append]

/-- The fields of one record: a key other than `__proto__` is present exactly
when a child element has that tag name, with the text of the last such child. -/
theorem getKey_bookOf (libro : Node) (k : String) :
    getKey k (bookOf libro) = if k = "__proto__" then none else lastChildText libro k := by
  unfold bookOf lastChildText
  rw [getKey_foldl_assign]
  by_cases hk : k = "__proto__"
  · simp [hk, getKey]
  · simp only [hk, if_false, getKey]
    cases (libro.children.filter (fun child => child.tagName = k)).getLast? <;> rfl

/-- Elements none of which has the name are all filtered out. -/
theorem filter_name_eq_nil (name : String) (ns : List Node)
    (h : ns.all (fun m => m.tagName != name) = true) :
    ns.filter (fun m => decide (m.tagName = name)) = [] := by
  rw [List.filter_eq_nil_iff]
  intro m hm
  have := (List.all_eq_true.mp h) m hm
  simpa using this

mutual
/-- Without nesting, the elements of a name under a node are the outermost ones. -/
theorem Node.named_eq_topLevel (name : String) : ∀ n : Node,
    (n.elements.filter (fun m => decide (m.tagName = name))).all
        (fun m => (elementsList m.childNodes).all (fun x => x.tagName != name)) = true →
      n.elements.filter (fun m => decide (m.tagName = name)) = n.topLevel name
  | .element t cs, h => by
    have htag : (Node.element t cs).tagName = t := rfl
    have hkids : (Node.element t cs).childNodes = cs := rfl
    by_cases ht : t = name
    · subst ht
      have hself : (elementsList cs).all (fun x => x.tagName != t) = true := by
        simp only [Node.elements, List.filter_cons, htag, decide_True, if_true,
          List.all_cons, Bool.and_eq_true, hkids] at h
        exact h.1
      simp only [Node.elements, Node.topLevel, List.filter_cons, htag, decide_True, if_true,
        filter_name_eq_nil t _ hself]
    · have hrest : ((elementsList cs).filter (fun m => decide (m.tagName = name))).all
          (fun m => (elementsList m.childNodes).all (fun x => x.tagName != name)) = true := by
        simpa only [Node.elements, List.filter_cons, htag, ht, decide_False,
          Bool.false_eq_true, if_false] using h
      simp only [Node.elements, Node.topLevel, List.filter_cons, htag, ht, decide_False,
        Bool.false_eq_true, if_false]
      exact named_eq_topLevelList name cs hrest
  | .text _, _ => by simp [Node.elements, Node.topLevel]
  | .comment _, _ => by simp [Node.elements, Node.topLevel]
/-- Without nesting, the elements of a name under siblings are the outermost ones. -/
theorem named_eq_topLevelList (name : String) : ∀ cs : List Node,
    ((elementsList cs).filter (fun m => decide (m.tagName = name))).all
        (fun m => (elementsList m.childNodes).all (fun x => x.tagName != name)) = true →
      (elementsList cs).filter (fun m => decide (m.tagName = name)) = topLevelList name cs
  | [], _ => by simp [elementsList, topLevelList]
  | c :: cs, h => by
    simp only [elementsList, List.filter_append, List.all_append, Bool.and_eq_true] at h
    simp only [elementsList, topLevelList, List.filter_append]
    rw [Node.named_eq_topLevel name c h.1, named_eq_topLevelList name cs h.2]
end

/-- C9, amended. For a document that parses without a `parsererror` element,
`parseXMLBooks` returns one record per `libro` element anywhere in the
document, nested ones included, in document order; in record `i` a key other
than `__proto__` is present exactly when the `i`-th `libro` element has a
child element of that tag name, and its value is the text content of the last
such child, as a string; and when no `libro` element lies inside another, the
`libro` elements are the top-level ones. -/
theorem parseXMLBooks_records (parseFromString : String → Except JsErr Node) (xmlText : String)
    (xmlDoc : Node) (hparse : parseFromString xmlText = .ok xmlDoc)
    (hwell : querySelector "parsererror" xmlDoc = none) :
    ∃ books : List Obj, parseXMLBooks parseFromString xmlText = .ok books
      ∧ books.length = (getElementsByTagName "libro" xmlDoc).length
      ∧ (∀ (i : Nat) (libro : Node), (getElementsByTagName "libro" xmlDoc)[i]? = some libro →
          ∃ book, books[i]? = some book
            ∧ ∀ k, getKey k book = if k = "__proto__" then none else lastChildText libro k)
      ∧ (nestingFree "libro" xmlDoc = true →
          getElementsByTagName "libro" xmlDoc = xmlDoc.topLevel "libro") := by
  refine ⟨(getElementsByTagName "libro" xmlDoc).map bookOf, ?_, by simp, ?_, ?_⟩
  · simp [parseXMLBooks, parseXMLBooksTry, hparse, hwell]
  · intro i libro hi
    exact ⟨bookOf libro, by simp [List.getElem?_map, hi], fun k => getKey_bookOf libro k⟩
  · intro hfree
    exact Node.named_eq_topLevel "libro" xmlDoc hfree

/-- Witness of C9, amended: a flat catalog of two records, the second without a price. -/
theorem parseXMLBooks_records_witness :
    parseXMLBooks (fun _ => .ok flatCatalog) "<libros>...</libros>"
        = .ok [[("isbn", "1"), ("precio", "9.5")], [("isbn", "2")]]
      ∧ ∃ books : List Obj, parseXMLBooks (fun _ => .ok flatCatalog) "<libros>...</libros>" = .ok books
        ∧ books.length = (getElementsByTagName "libro" flatCatalog).length :=
  ⟨by decide,
    (parseXMLBooks_records (fun _ => .ok flatCatalog) "<libros>...</libros>" flatCatalog rfl
      (Option.isNone_iff_eq_none.mp (by decide))).imp (fun _ h => ⟨h.1, h.2.1⟩)⟩

/-- C10. The function `parseXMLBooks` returns for every input and every
behaviour of the parser, never throwing; when the parser throws, or reports
the markup as malformed through a `parsererror` element, it returns `[]`. -/
theorem parseXMLBooks_total (parseFromString : String → Except JsErr Node) (xmlText : String) :
    (∃ books, parseXMLBooks parseFromString xmlText = .ok books)
      ∧ (∀ e, parseFromString xmlText = .error e →
          parseXMLBooks parseFromString xmlText = .ok [])
      ∧ (∀ xmlDoc, parseFromString xmlText = .ok xmlDoc →
          (querySelector "parsererror" xmlDoc).isSome = true →
          parseXMLBooks parseFromString xmlText = .ok []) := by
  refine ⟨?_, ?_, ?_⟩
  · unfold parseXMLBooks
    cases parseXMLBooksTry parseFromString xmlText with
    | error e => exact ⟨[], rfl⟩
    | ok books => exact ⟨books, rfl⟩
  · intro e he
    simp [parseXMLBooks, parseXMLBooksTry, he]
  · intro xmlDoc hdoc hsome
    obtain ⟨n, hn⟩ := Option.isSome_iff_exists.mp hsome
    simp [parseXMLBooks, parseXMLBooksTry, hdoc, hn]

/-- Witness of C10: the browser answers malformed markup with an error document. -/
theorem parseXMLBooks_total_witness :
    (querySelector "parsererror" errorDocument).isSome = true
      ∧ parseXMLBooks (fun _ => .ok errorDocument) "<libros><libro></libros>" = .ok [] :=
  ⟨by decide,
    (parseXMLBooks_total (fun _ => .ok errorDocument) "<libros><libro></libros>").2.2
      errorDocument rfl (by decide)⟩

/-- The method `split` on a name with two dots, and the last piece of it. -/
theorem split_two_dots :
    split '.' "a.b.png" = ["a", "b", "png"] ∧ pop (split '.' "a.b.png") = "png" := by
  decide

/-- A prefixed element name has the part after the colon as its local name. -/
theorem localName_after_colon : localName "x:parsererror" = "parsererror" := by
  decide

/-- After a 401 answer, when no access token is held once the refresh is
over, the wrapper returns `null` and the session is gone from memory and from
storage. -/
theorem makeAuthenticatedRequest_clears_without_token (srv : Server) (url : String)
    (options : Options) (w : World) (r : Response)
    (hfirst : srv w.sent.length url (firstInit w options) = .ok r) (h401 : r.status = 401)
    (hno : (refreshTokenIfNeeded srv (afterFirst401 url options w)).2.session.accessToken.truthy
      = false) :
    (makeAuthenticatedRequest srv url options w).1 = .ok none
      ∧ (makeAuthenticatedRequest srv url options w).2.session = ⟨JVal.null, JVal.null, JVal.null⟩
      ∧ (makeAuthenticatedRequest srv url options w).2.localStorage = ⟨none, none, none⟩ := by
  rw [makeAuthenticatedRequest_unfold_401 srv url options w r hfirst h401]
  simp only [hno, Bool.false_eq_true, if_false]
  refine ⟨trivial, ?_, ?_⟩ <;>
  · unfold logout fetch
    cases srv _ (API_BASE_URL ++ "/auth/logout") _ <;> simp [log, showLoginForm]

/-- The first element that passes a test heads the filtered list. -/
theorem head_filter_eq_find {α : Type} (p : α → Bool) (l : List α) :
    (l.filter p).head? = l.find? p := by
  induction l with
  | nil => rfl
  | cons x rest ih =>
    by_cases hx : p x = true
    · simp [List.filter_cons, List.find?_cons, hx]
    · simp [List.filter_cons, List.find?_cons, hx, ih]

/-- C11, as stated, fails: when parsing throws, the message returned is the
one of the `catch` block, not the default `Error desconocido`. -/
theorem parseXMLError_parser_throws :
    parseXMLError throwingParser "<error>x</error>" = .ok "Error al parsear mensaje de error"
      ∧ parseXMLError throwingParser "<error>x</error>" ≠ .ok "Error desconocido" := by
  decide

/-- C11, amended. The function `parseXMLError` never throws; if the parsed
document has an `error` element, it returns the text content of the first one
in document order; if the document has none, malformed markup included, it
returns `Error desconocido`; if parsing throws, it returns `Error al parsear
mensaje de error`. -/
theorem parseXMLError_message (parseFromString : String → Except JsErr Node) (xmlText : String) :
    (∃ message, parseXMLError parseFromString xmlText = .ok message)
      ∧ (∀ xmlDoc errorElement, parseFromString xmlText = .ok xmlDoc →
          xmlDoc.elements.find? (fun n => n.tagName = "error") = some errorElement →
          parseXMLError parseFromString xmlText = .ok errorElement.textContent)
      ∧ (∀ xmlDoc, parseFromString xmlText = .ok xmlDoc →
          (∀ n, n ∈ xmlDoc.elements → n.tagName ≠ "error") →
          parseXMLError parseFromString xmlText = .ok "Error desconocido")
      ∧ (∀ e, parseFromString xmlText = .error e →
          parseXMLError parseFromString xmlText = .ok "Error al parsear mensaje de error") := by
  refine ⟨?_, ?_, ?_, ?_⟩
  · unfold parseXMLError
    cases parseXMLErrorTry parseFromString xmlText with
    | error e => exact ⟨_, rfl⟩
    | ok message => exact ⟨message, rfl⟩
  · intro xmlDoc errorElement hdoc hfind
    have hhead : (getElementsByTagName "error" xmlDoc).head? = some errorElement := by
      unfold getElementsByTagName
      rw [head_filter_eq_find]
      exact hfind
    simp [parseXMLError, parseXMLErrorTry, hdoc, hhead]
  · intro xmlDoc hdoc hnone
    have hnil : getElementsByTagName "error" xmlDoc = [] := by
      unfold getElementsByTagName
      rw [List.filter_eq_nil_iff]
      intro n hn
      simpa using hnone n hn
    simp [parseXMLError, parseXMLErrorTry, hdoc, hnil]
  · intro e he
    simp [parseXMLError, parseXMLErrorTry, he]

/-- Witness of C11, amended: of the two `error` elements of an answer, the
text of the first is the message. -/
theorem parseXMLError_message_witness :
    parseXMLError (fun _ => .ok errorAnswer) "<response>...</response>" = .ok "ISBN duplicado" :=
  (parseXMLError_message (fun _ => .ok errorAnswer) "<response>...</response>").2.1
    errorAnswer (.element "error" [.text "ISBN duplicado"]) rfl rfl

/-- C12. For every selected file, `handleImageFileSelect` keeps the selection
and starts the preview, logging nothing, exactly when the MIME type starts
with `image/` and the size is at most 5242880 bytes; otherwise it empties the
file input, starts no preview and logs one error. -/
theorem handleImageFileSelect_accepts_iff (file : File) (rest : List File)
    (reading : Option File) (w : World) :
    (handleImageFileSelect ⟨file :: rest, reading⟩ w = (⟨file :: rest, some file⟩, w)
        ↔ (startsWith file.type "image/" = true ∧ file.size ≤ 5242880))
      ∧ (¬ (startsWith file.type "image/" = true ∧ file.size ≤ 5242880) →
          (handleImageFileSelect ⟨file :: rest, reading⟩ w).1 = ⟨[], reading⟩
            ∧ ∃ message, (handleImageFileSelect ⟨file :: rest, reading⟩ w).2
              = log message "error" w) := by
  by_cases ht : startsWith file.type "image/" = true
  · by_cases hs : file.size ≤ 5242880
    · have hs2 : ¬ file.size > 5 * 1024 * 1024 := by omega
      simp [handleImageFileSelect, ht, hs, hs2]
    · have hs2 : file.size > 5 * 1024 * 1024 := by omega
      refine ⟨?_, ?_⟩
      · simp [handleImageFileSelect, ht, hs, hs2]
      · intro _
        exact ⟨by simp [handleImageFileSelect, ht, hs2],
          "La imagen es demasiado grande. Máximo 5MB", by simp [handleImageFileSelect, ht, hs2]⟩
  · refine ⟨?_, ?_⟩
    · simp [handleImageFileSelect, ht]
    · intro _
      exact ⟨by simp [handleImageFileSelect, ht],
        "Por favor, seleccione un archivo de imagen válido", by simp [handleImageFileSelect, ht]⟩

/-- Witness of C12: a 2 MB png and an image of exactly 5242880 bytes are kept,
a 6 MB image and a text file are dropped from the input. -/
theorem handleImageFileSelect_accepts_iff_witness :
    handleImageFileSelect (picked "image/png" (2 * 1024 * 1024)) freshWorld
        = (⟨[⟨"portada", "image/png", 2 * 1024 * 1024⟩],
            some ⟨"portada", "image/png", 2 * 1024 * 1024⟩⟩, freshWorld)
      ∧ (handleImageFileSelect (picked "image/jpeg" 5242880) freshWorld).1.files
        = [⟨"portada", "image/jpeg", 5242880⟩]
      ∧ (handleImageFileSelect (picked "image/png" (6 * 1024 * 1024)) freshWorld).1.files = []
      ∧ (handleImageFileSelect (picked "text/plain" 10) freshWorld).1.files = []
      ∧ (handleImageFileSelect (picked "image/png" 5242881) freshWorld).1.files = [] :=
  ⟨(handleImageFileSelect_accepts_iff ⟨"portada", "image/png", 2 * 1024 * 1024⟩ [] none
      freshWorld).1.mpr ⟨by decide, by decide⟩,
    by decide, by decide, by decide, by decide⟩

/-- What `logout` leaves behind, whatever the server answers: one logout
request more in the trace, and nothing of the session in memory or storage. -/
theorem logout_effect (srv : Server) (w : World) :
    (logout srv w).2.session = ⟨JVal.null, JVal.null, JVal.null⟩
      ∧ (logout srv w).2.localStorage = ⟨none, none, none⟩
      ∧ ∃ init, (logout srv w).2.sent = w.sent ++ [⟨Site.logout, logoutUrl, init⟩] := by
  unfold logout fetch
  cases srv w.sent.length (API_BASE_URL ++ "/auth/logout")
    ⟨some "POST", some [("Authorization", "Bearer " ++ w.session.accessToken.toStr)], none⟩ <;>
    simp [log, showLoginForm, logoutUrl]

/-- The trace after `makeAuthenticatedRequest` continues the trace before it
with the first request, whatever follows. -/
theorem makeAuthenticatedRequest_sent_first (srv : Server) (url : String) (options : Options)
    (w : World) :
    ∃ more, (makeAuthenticatedRequest srv url options w).2.sent
      = w.sent ++ ⟨Site.request, url, firstInit w options⟩ :: more := by
  cases hs : srv w.sent.length url (firstInit w options) with
  | error e =>
    refine ⟨[], ?_⟩
    unfold makeAuthenticatedRequest fetch
    simp only [firstInit] at hs
    simp [hs, firstInit]
  | ok r =>
    by_cases h401 : r.status = 401
    · rw [makeAuthenticatedRequest_unfold_401 srv url options w r hs h401]
      obtain ⟨_, _, hsent⟩ := refreshTokenIfNeeded_shape srv (afterFirst401 url options w)
      have hbase : (afterFirst401 url options w).sent
          = w.sent ++ [⟨Site.request, url, firstInit w options⟩] := rfl
      rw [hbase] at hsent
      generalize refreshTokenIfNeeded srv (afterFirst401 url options w) = R at hsent ⊢
      obtain ⟨res, w3⟩ := R
      simp only at hsent ⊢
      by_cases ht : w3.session.accessToken.truthy = true
      · simp only [ht, if_true]
        rcases hsent with hs3 | ⟨_, hs3⟩
        · exact ⟨[⟨Site.retry, url, retryInit w.session.accessToken w3.session.accessToken options⟩],
            by simp [hs3]⟩
        · exact ⟨[⟨Site.refresh, refreshUrl, refreshInit (afterFirst401 url options w).session.refreshToken⟩,
            ⟨Site.retry, url, retryInit w.session.accessToken w3.session.accessToken options⟩],
            by simp [hs3]⟩
      · simp only [ht, Bool.false_eq_true, if_false]
        obtain ⟨_, _, init, hlo⟩ := logout_effect srv
          (log "No se pudo renovar el token, redirigiendo al login" "error" w3)
        have hlogsent : (log "No se pudo renovar el token, redirigiendo al login" "error" w3).sent
            = w3.sent := rfl
        rw [hlogsent] at hlo
        rcases hsent with hs3 | ⟨_, hs3⟩
        · exact ⟨[⟨Site.logout, logoutUrl, init⟩], by simp [hlo, hs3]⟩
        · exact ⟨[⟨Site.refresh, refreshUrl, refreshInit (afterFirst401 url options w).session.refreshToken⟩,
            ⟨Site.logout, logoutUrl, init⟩], by simp [hlo, hs3]⟩
    · refine ⟨[], ?_⟩
      unfold makeAuthenticatedRequest fetch
      simp only [firstInit] at hs
      simp [hs, h401, firstInit]

/-- The requests of `loadBooks` are those of its one catalog list call. -/
theorem loadBooks_sent (srv : Server) (w : World) :
    (loadBooks srv w).2.sent
      = (makeAuthenticatedRequest srv booksUrl Options.empty
          (log "Solicitando libros al servidor..." "info" w)).2.sent := by
  unfold loadBooks
  simp only [booksUrl]
  generalize makeAuthenticatedRequest srv (API_BASE_URL ++ "/api/books") Options.empty
    (log "Solicitando libros al servidor..." "info" w) = R
  obtain ⟨res, w2⟩ := R
  cases res with
  | error e => rfl
  | ok v => cases v <;> rfl

/-- C13. After a login answered successfully with the strings `a`, `r` and
`u`, the session variables and the three storage slots hold exactly these,
and the next `makeAuthenticatedRequest` without caller headers, the catalog
list call of `loadBooks` among them, goes out with `Authorization: Bearer a`;
with an empty field nothing is sent and the session is untouched; after an
answer that is not successful, or no answer at all, the session is untouched. -/
theorem login_session (stringify : Obj → String) (srv : Server) (username password : String)
    (w : World) :
    (∀ response data a r u, username ≠ "" → password ≠ "" →
        srv w.sent.length loginUrl (loginInit stringify username password) = .ok response →
        response.ok = true → response.json = .ok data →
        data.get "access_token" = .ok (JVal.str a) →
        data.get "refresh_token" = .ok (JVal.str r) →
        data.get "username" = .ok (JVal.str u) →
        (login stringify srv username password w).2.session = ⟨JVal.str a, JVal.str r, JVal.str u⟩
          ∧ (login stringify srv username password w).2.localStorage = ⟨some a, some r, some u⟩
          ∧ (∀ (next : Server) (url : String) (options : Options), options.headers = none →
              ∃ more, (makeAuthenticatedRequest next url options
                  (login stringify srv username password w).2).2.sent
                = (login stringify srv username password w).2.sent
                  ++ ⟨Site.request, url, ⟨options.method,
                      some [("Authorization", "Bearer " ++ a), ("Content-Type", "application/json")],
                      options.body⟩⟩ :: more)
          ∧ (∀ next : Server, ∃ more,
              (loadBooks next (login stringify srv username password w).2).2.sent
                = (login stringify srv username password w).2.sent
                  ++ ⟨Site.request, booksUrl, ⟨none,
                      some [("Authorization", "Bearer " ++ a), ("Content-Type", "application/json")],
                      none⟩⟩ :: more))
      ∧ (username = "" ∨ password = "" →
          (login stringify srv username password w).2.session = w.session
            ∧ (login stringify srv username password w).2.localStorage = w.localStorage
            ∧ (login stringify srv username password w).2.sent = w.sent)
      ∧ (∀ response, srv w.sent.length loginUrl (loginInit stringify username password)
            = .ok response → response.ok = false →
          (login stringify srv username password w).2.session = w.session
            ∧ (login stringify srv username password w).2.localStorage = w.localStorage)
      ∧ (∀ e, srv w.sent.length loginUrl (loginInit stringify username password) = .error e →
          (login stringify srv username password w).2.session = w.session
            ∧ (login stringify srv username password w).2.localStorage = w.localStorage) := by
  refine ⟨?_, ?_, ?_, ?_⟩
  · intro response data a r u huser hpass hans hok hjson ha hr hu
    simp only [loginUrl] at hans
    have hsess : (login stringify srv username password w).2.session
        = ⟨JVal.str a, JVal.str r, JVal.str u⟩ := by
      unfold login fetch
      simp [huser, hpass, hans, hok, hjson, ha, hr, hu, log, showMainContent]
    have hstore : (login stringify srv username password w).2.localStorage
        = ⟨some a, some r, some u⟩ := by
      unfold login fetch
      simp [huser, hpass, hans, hok, hjson, ha, hr, hu, log, showMainContent, JVal.toStr]
    have hinit : ∀ (v : World) (options : Options), v.session.accessToken = JVal.str a →
        options.headers = none →
        firstInit v options = ⟨options.method,
          some [("Authorization", "Bearer " ++ a), ("Content-Type", "application/json")],
          options.body⟩ := by
      intro v options hv hh
      simp [firstInit, withDefaults, defaultHeaders, spread, hv, hh, JVal.toStr]
    refine ⟨hsess, hstore, ?_, ?_⟩
    · intro next url options hh
      obtain ⟨more, hmore⟩ := makeAuthenticatedRequest_sent_first next url options
        (login stringify srv username password w).2
      rw [hinit _ options (by rw [hsess]) hh] at hmore
      exact ⟨more, hmore⟩
    · intro next
      rw [loadBooks_sent]
      obtain ⟨more, hmore⟩ := makeAuthenticatedRequest_sent_first next booksUrl Options.empty
        (log "Solicitando libros al servidor..." "info" (login stringify srv username password w).2)
      have hacc : (log "Solicitando libros al servidor..." "info"
          (login stringify srv username password w).2).session.accessToken = JVal.str a := by
        show (login stringify srv username password w).2.session.accessToken = JVal.str a
        rw [hsess]
      rw [hinit _ Options.empty hacc rfl] at hmore
      exact ⟨more, hmore⟩
  · intro hempty
    unfold login
    simp [hempty, log]
  · intro response hans hok
    simp only [loginUrl] at hans
    unfold login fetch
    by_cases hempty : username = "" ∨ password = ""
    · simp [hempty, log]
    · simp only [hempty, if_false, hans, hok]
      cases response.json with
      | error e => simp [log]
      | ok data =>
        cases hd : JsonData.get "error" data <;> simp [hd, log]
  · intro e hans
    simp only [loginUrl] at hans
    unfold login fetch
    by_cases hempty : username = "" ∨ password = ""
    · simp [hempty, log]
    · simp [hempty, hans, log]

/-- Witness of C13: the user `ana` logs in on a fresh page and is given the
tokens `a1` and `r1`. -/
theorem login_session_witness :
    (login sampleStringify loginServer "ana" "secreto" freshWorld).2.session
        = ⟨JVal.str "a1", JVal.str "r1", JVal.str "ana"⟩
      ∧ (login sampleStringify loginServer "ana" "secreto" freshWorld).2.localStorage
        = ⟨some "a1", some "r1", some "ana"⟩ :=
  let h := (login_session sampleStringify loginServer "ana" "secreto" freshWorld).1
    ⟨200, "", .ok (JsonData.obj
      [("access_token", JVal.str "a1"), ("refresh_token", JVal.str "r1"),
        ("username", JVal.str "ana")])⟩
    (JsonData.obj
      [("access_token", JVal.str "a1"), ("refresh_token", JVal.str "r1"),
        ("username", JVal.str "ana")])
    "a1" "r1" "ana" (by decide) (by decide) rfl (by decide) rfl (by decide) (by decide) (by decide)
  ⟨h.1, h.2.1⟩

/-- Consistency only looks at the session variables and the storage slots. -/
theorem consistent_of_same (w v : World) (hs : v.session = w.session)
    (hl : v.localStorage = w.localStorage) (h : consistent w) : consistent v := by
  unfold consistent at h ⊢
  rw [hs, hl]
  exact h

/-- A freshly loaded page is consistent. -/
theorem consistent_load (st : LocalStorage) (view : View) : consistent (World.load st view) :=
  ⟨rfl, rfl, rfl⟩

/-- After `logout` the page is consistent: nothing is held anywhere. -/
theorem consistent_logout (srv : Server) (w : World) : consistent (logout srv w).2 := by
  obtain ⟨hs, hl, _⟩ := logout_effect srv w
  unfold consistent
  rw [hs, hl]
  exact ⟨rfl, rfl, rfl⟩

/-- A refresh keeps the page consistent when the tokens served are strings. -/
theorem consistent_refresh (srv : Server) (w : World) (htok : stringTokens srv)
    (h : consistent w) : consistent (refreshTokenIfNeeded srv w).2 := by
  unfold refreshTokenIfNeeded fetch
  by_cases ht : w.session.refreshToken.truthy = false
  · simp only [ht, if_true]
    exact consistent_of_same w _ rfl rfl h
  · simp only [ht, Bool.false_eq_true, if_false]
    cases hs : srv w.sent.length (API_BASE_URL ++ "/auth/refresh")
        ⟨some "POST", some [("Authorization", "Bearer " ++ w.session.refreshToken.toStr)], none⟩ with
    | error e => exact consistent_of_same w _ rfl rfl h
    | ok response =>
      by_cases hok : response.ok = true
      · simp only [hok, if_true]
        cases hjs : response.json with
        | error e => exact consistent_of_same w _ rfl rfl h
        | ok data =>
          cases hg : JsonData.get "access_token" data with
          | error e =>
            simp only [bind, Except.bind, hg]
            exact consistent_of_same w _ rfl rfl h
          | ok token =>
            obtain ⟨s, hstr⟩ := htok.2 w.sent.length _ response data hs hok hjs token hg
            subst hstr
            simp only [bind, Except.bind, hg]
            exact ⟨rfl, h.2.1, h.2.2⟩
      · simp only [hok, Bool.false_eq_true, if_false]
        exact consistent_of_same w _ rfl rfl h

/-- A login keeps the page consistent when the fields served are strings. -/
theorem consistent_login (stringify : Obj → String) (srv : Server) (username password : String)
    (w : World) (htok : stringTokens srv) (h : consistent w) :
    consistent (login stringify srv username password w).2 := by
  unfold login fetch
  by_cases hempty : username = "" ∨ password = ""
  · simp only [hempty, if_true]
    exact consistent_of_same w _ rfl rfl h
  · simp only [hempty, if_false]
    cases hs : srv w.sent.length (API_BASE_URL ++ "/auth/login")
        (loginInit stringify username password) with
    | error e => exact consistent_of_same w _ rfl rfl h
    | ok response =>
      dsimp only
      cases hjs : response.json with
      | error e => exact consistent_of_same w _ rfl rfl h
      | ok data =>
        dsimp only
        by_cases hok : response.ok = true
        · obtain ⟨h1, h2, h3⟩ := htok.1 w.sent.length _ response data hs hok hjs
          simp only [hok, if_true]
          cases ha : JsonData.get "access_token" data with
          | error e => exact consistent_of_same w _ rfl rfl h
          | ok access =>
            dsimp only
            cases hr : JsonData.get "refresh_token" data with
            | error e =>
              cases data with
              | null => simp [JsonData.get] at ha
              | obj fields => simp only [JsonData.get] at hr; split at hr <;> cases hr
            | ok refresh =>
              dsimp only
              cases hu : JsonData.get "username" data with
              | error e =>
                cases data with
                | null => simp [JsonData.get] at ha
                | obj fields => simp only [JsonData.get] at hu; split at hu <;> cases hu
              | ok user =>
                obtain ⟨sa, hsa⟩ := h1 access ha
                obtain ⟨sr, hsr⟩ := h2 refresh hr
                obtain ⟨su, hsu⟩ := h3 user hu
                subst hsa hsr hsu
                exact ⟨rfl, rfl, rfl⟩
        · simp only [hok, Bool.false_eq_true, if_false]
          cases hd : JsonData.get "error" data <;> exact consistent_of_same w _ rfl rfl h

/-- An authenticated request keeps the page consistent when the tokens served
are strings. -/
theorem consistent_request (srv : Server) (url : String) (options : Options) (w : World)
    (htok : stringTokens srv) (h : consistent w) :
    consistent (makeAuthenticatedRequest srv url options w).2 := by
  cases hs : srv w.sent.length url (firstInit w options) with
  | error e =>
    unfold makeAuthenticatedRequest fetch
    simp only [firstInit] at hs
    simp only [hs]
    exact consistent_of_same w _ rfl rfl h
  | ok r =>
    by_cases h401 : r.status = 401
    · rw [makeAuthenticatedRequest_unfold_401 srv url options w r hs h401]
      have hmid : consistent (refreshTokenIfNeeded srv (afterFirst401 url options w)).2 :=
        consistent_refresh srv _ htok (consistent_of_same w _ rfl rfl h)
      by_cases ht : (refreshTokenIfNeeded srv (afterFirst401 url options w)).2.session.accessToken.truthy
          = true
      · simp only [ht, if_true]
        exact consistent_of_same _ _ rfl rfl hmid
      · simp only [ht, Bool.false_eq_true, if_false]
        exact consistent_logout srv _
    · unfold makeAuthenticatedRequest fetch
      simp only [firstInit] at hs
      simp only [hs, h401, if_false]
      exact consistent_of_same w _ rfl rfl h

/-- Every operation keeps the page consistent when the tokens served are strings. -/
theorem consistent_step (stringify : Obj → String) (srv : Server) (op : Op) (w : World)
    (htok : stringTokens srv) (h : consistent w) : consistent (step stringify srv op w) := by
  cases op with
  | login username password => exact consistent_login stringify srv username password w htok h
  | refresh => exact consistent_refresh srv w htok h
  | logout => exact consistent_logout srv w
  | request url options => exact consistent_request srv url options w htok h

/-- Every sequence of operations keeps a consistent page consistent when the
tokens served are strings. -/
theorem consistent_run (stringify : Obj → String) (srv : Server) (ops : List Op) (w : World)
    (htok : stringTokens srv) (h : consistent w) : consistent (run stringify srv ops w) := by
  induction ops generalizing w with
  | nil => exact h
  | cons op rest ih => exact ih (step stringify srv op w) (consistent_step stringify srv op w htok h)

/-- The server of the login scenario serves string tokens. -/
theorem loginServer_stringTokens : stringTokens loginServer := by
  constructor
  · intro n init response data hs hok hj
    simp only [loginServer, Except.ok.injEq] at hs
    subst hs
    simp only [Except.ok.injEq] at hj
    subst hj
    refine ⟨?_, ?_, ?_⟩ <;>
    · intro v hv
      simp [JsonData.get, List.find?] at hv
      exact ⟨_, hv.symm⟩
  · intro n init response data hs hok hj
    simp only [loginServer, Except.ok.injEq] at hs
    subst hs
    simp only [Except.ok.injEq] at hj
    subst hj
    intro v hv
    simp [JsonData.get, List.find?] at hv
    exact ⟨_, hv.symm⟩

/-- C14, as stated, fails: a login answered with status 200 and a payload
without the three fields leaves `undefined` in the session variables and the
text `undefined` in the three storage slots. -/
theorem run_login_without_fields :
    (run sampleStringify tokenlessServer [Op.login "ana" "secreto"] freshWorld).session
        = ⟨JVal.undefined, JVal.undefined, JVal.undefined⟩
      ∧ (run sampleStringify tokenlessServer [Op.login "ana" "secreto"] freshWorld).localStorage
        = ⟨some "undefined", some "undefined", some "undefined"⟩
      ∧ ¬ consistent (run sampleStringify tokenlessServer [Op.login "ana" "secreto"] freshWorld) := by
  decide

/-- C14, amended. Provided every successful answer of the login endpoint
carries its three fields as strings and every successful answer of the
refresh endpoint its access token as a string, after any sequence of login,
refresh, logout and authenticated requests on a freshly loaded page each
session variable is what its storage slot holds; and whatever the server
does, after a logout all three are absent in memory and in storage. -/
theorem session_consistent (stringify : Obj → String) (srv : Server) (ops : List Op)
    (st : LocalStorage) (view : View) :
    (stringTokens srv → consistent (run stringify srv ops (World.load st view)))
      ∧ (run stringify srv (ops ++ [Op.logout]) (World.load st view)).session
        = ⟨JVal.null, JVal.null, JVal.null⟩
      ∧ (run stringify srv (ops ++ [Op.logout]) (World.load st view)).localStorage
        = ⟨none, none, none⟩ := by
  refine ⟨fun htok => consistent_run stringify srv ops _ htok (consistent_load st view), ?_, ?_⟩
  · simp only [run, List.foldl_append, List.foldl_cons, List.foldl_nil, step]
    exact (logout_effect srv _).1
  · simp only [run, List.foldl_append, List.foldl_cons, List.foldl_nil, step]
    exact (logout_effect srv _).2.1

/-- Witness of C14, amended: a session against a server that serves string tokens. -/
theorem session_consistent_witness :
    stringTokens loginServer
      ∧ consistent (run sampleStringify loginServer sampleOps freshWorld) :=
  ⟨loginServer_stringTokens,
    (session_consistent sampleStringify loginServer sampleOps ⟨none, none, none⟩
      View.loginForm).1 loginServer_stringTokens⟩

end Webapp
